import Mathlib

/-!
Verification of the derived-metrics core of the `gautriv/productivity` task
tracker against its natural-language specification.

Each Lean definition below is a shallow embedding of one Python function or
one static data table of the repository; the embedding keeps the source's
names and control flow.  Python machine integers are modelled by `ℤ`/`ℕ`;
Python floats that only ever hold small decimal constants (`2.0`, `1.5`,
`1.2`, `1.0`) and products of such constants with integers are modelled by
exact rationals `ℚ`; `int(x)` (truncation toward zero) is modelled by
`pyInt`.  Randomness and the current wall-clock date are passed in as
explicit parameters.  Presentational payload (icons, colors, human-readable
descriptions) that no claim mentions is omitted from the embedded records;
every field that takes part in a computation is kept.
-/

/-- Python `int(x)` applied to a (here: exact, rational-valued) float:
truncation toward zero. -/
def pyInt (q : ℚ) : ℤ := if 0 ≤ q then ⌊q⌋ else ⌈q⌉

namespace database

/-- Task attributes consumed by `calculate_task_points`
(`src/app/models/database.py`); `cognitive_load` is `none` when the column
is NULL. -/
structure Task where
  complexity : ℕ
  cognitive_load : Option String
  time_estimate : ℕ
deriving DecidableEq, Repr

/-- The `load_multipliers` dict literal inside `calculate_task_points`
(`src/app/models/database.py` lines 130-135). -/
def load_multipliers : List (String × ℚ) :=
  [("deep_work", 2), ("learning", 3/2), ("active_work", 6/5), ("admin", 1)]

/-- `calculate_task_points` (`src/app/models/database.py` lines 125-141):
`int((complexity*10 + (time_estimate//30)*5) * load_multipliers.get(load, 1.0))`. -/
def calculate_task_points (task : Task) : ℤ :=
  let base_points : ℤ := (task.complexity : ℤ) * 10
  let multiplier : ℚ :=
    match task.cognitive_load with
    | some k => (load_multipliers.lookup k).getD 1
    | none => 1
  let time_bonus : ℤ := ((task.time_estimate / 30 : ℕ) : ℤ) * 5
  pyInt (((base_points + time_bonus : ℤ) : ℚ) * multiplier)

/-- `calculate_penalty` (`src/app/models/database.py` lines 143-145):
the flat formula `rolled_over_count * 2`. -/
def calculate_penalty (rolled_over_count : ℤ) : ℤ :=
  rolled_over_count * 2

end database

namespace PointsEngine

/-- The `PENALTIES` class constant of `PointsEngine`
(`src/services/motivation/points.py` lines 202-207). -/
structure PenaltyConfig where
  rollover_base : ℚ
  rollover_escalation : ℚ
  abandoned_penalty : ℤ
  max_penalty_per_task : ℤ
deriving DecidableEq, Repr

def PENALTIES : PenaltyConfig :=
  { rollover_base := 3
    rollover_escalation := 3/2
    abandoned_penalty := 10
    max_penalty_per_task := 25 }

/-- `PointsEngine._calculate_penalty` (`src/services/motivation/points.py`
lines 425-439).  The Python accumulates `penalty += base * escalation ** i`
for `i in range(count)` into a local `penalty`, then returns
`min(int(penalty), max_penalty_per_task)`; the accumulation loop is the
`Finset.range` sum below, with `0` returned for a non-positive count. -/
def _calculate_penalty (rolled_over_count : ℤ) : ℤ :=
  if rolled_over_count ≤ 0 then 0
  else
    min (pyInt (∑ i in Finset.range rolled_over_count.toNat,
        PENALTIES.rollover_base * PENALTIES.rollover_escalation ^ i))
      PENALTIES.max_penalty_per_task

end PointsEngine

namespace helpers

/-- A JSON field value as inspected by `validate_task_data`: a Python int, a
Python string, or some other payload (e.g. `null`, float, list) that is
neither. -/
inductive PyVal where
  | int : ℤ → PyVal
  | str : String → PyVal
  | other : PyVal
deriving DecidableEq, Repr

/-- The request payload fields read by `validate_task_data`
(`src/utils/helpers.py` lines 39-59); `none` models an absent key.  The
title is sent as a string by the client; its check in the code is Python
truthiness (`not data.get('title')`), which for an optional string rejects
exactly the absent and the empty title. -/
structure TaskData where
  title : Option String
  complexity : Option PyVal
  cognitive_load : Option PyVal
  time_estimate : Option PyVal
deriving DecidableEq, Repr

def valid_loads : List String := ["deep_work", "active_work", "admin", "learning"]

/-- `validate_task_data` (`src/utils/helpers.py` lines 39-59).  Each `if`
mirrors one `errors.append(...)` guard of the source:
`not data.get('title')`;
`not isinstance(complexity, int) or complexity < 1 or complexity > 5` with
default 3; `cognitive_load not in valid_loads` with default
`'active_work'`; `not isinstance(time_estimate, int) or time_estimate < 0`
with default 30. -/
def validate_task_data (data : TaskData) : List String :=
  let errors : List String := []
  let errors := if data.title.getD "" = "" then
    errors ++ ["Title is required"] else errors
  let complexity := data.complexity.getD (PyVal.int 3)
  let errors := if (match complexity with
      | PyVal.int n => decide (n < 1) || decide (n > 5)
      | _ => true) then
    errors ++ ["Complexity must be between 1 and 5"] else errors
  let cognitive_load := data.cognitive_load.getD (PyVal.str "active_work")
  let errors := if (match cognitive_load with
      | PyVal.str s => decide (s ∉ valid_loads)
      | _ => true) then
    errors ++ ["Cognitive load must be one of: deep_work, active_work, admin, learning"]
    else errors
  let time_estimate := data.time_estimate.getD (PyVal.int 30)
  let errors := if (match time_estimate with
      | PyVal.int n => decide (n < 0)
      | _ => true) then
    errors ++ ["Time estimate must be a positive number"] else errors
  errors

end helpers

namespace GamificationEngine

/-- The `while check_date.isoformat() in completed_dates:` loop of
`GamificationEngine._calculate_current_streak`: counts consecutive present
days walking downward from `check_date`.  Termination: when the walked date
is present, the count of list entries `≤ check_date` strictly drops. -/
def streakWalk (completed_dates : List ℤ) (check_date : ℤ) : ℕ :=
  if h : check_date ∈ completed_dates then
    1 + streakWalk completed_dates (check_date - 1)
  else 0
termination_by completed_dates.countP (fun x => decide (x ≤ check_date))
decreasing_by
  have mono : ∀ (l : List ℤ) (d : ℤ),
      l.countP (fun x => decide (x ≤ d - 1)) ≤ l.countP (fun x => decide (x ≤ d)) := by
    intro l d
    induction l with
    | nil => simp
    | cons a l ih =>
      simp only [List.countP_cons]
      have hstep : (if decide (a ≤ d - 1) = true then 1 else 0) ≤
          (if decide (a ≤ d) = true then 1 else 0) := by
        by_cases hh : a ≤ d - 1
        · have h2 : a ≤ d := by omega
          simp [hh, h2]
        · simp [hh]
      omega
  have strict : ∀ (l : List ℤ) (d : ℤ), d ∈ l →
      l.countP (fun x => decide (x ≤ d - 1)) < l.countP (fun x => decide (x ≤ d)) := by
    intro l d hd
    induction l with
    | nil => cases hd
    | cons a l ih =>
      simp only [List.countP_cons]
      rcases List.mem_cons.mp hd with hcase | hcase
      · subst hcase
        have h1 : decide (d ≤ d) = true := by simp
        have h2 : decide (d ≤ d - 1) = false := by
          simp only [decide_eq_false_iff_not]
          omega
        have := mono l d
        simp only [h1, h2]
        norm_num
        omega
      · have := ih hcase
        have hind : (if decide (a ≤ d - 1) = true then 1 else 0) ≤
            (if decide (a ≤ d) = true then 1 else 0) := by
          by_cases hh : a ≤ d - 1
          · have h2 : a ≤ d := by omega
            simp [hh, h2]
          · simp [hh]
        omega
  exact strict completed_dates check_date h

/-- `GamificationEngine._calculate_current_streak`
(`src/services/motivation/gamification.py` lines 432-460), as a function of
today's date and the DISTINCT completed-dates list; calendar dates are
modelled by day numbers (the code only uses equality of ISO date strings and
stepping back one day). -/
def _calculate_current_streak (today : ℤ) (completed_dates : List ℤ) : ℕ :=
  if completed_dates = [] then 0
  else
    -- `if check_date.isoformat() not in completed_dates and streak == 0:`
    -- (`streak == 0` always holds at this point) step back one day first
    let check_date := if today ∈ completed_dates then today else today - 1
    streakWalk completed_dates check_date

end GamificationEngine

/-- Status of a scheduled task instance (`daily_tasks.status`). -/
inductive Status where
  | pending
  | in_progress
  | completed
  | abandoned
deriving DecidableEq, Repr

/-- A `daily_tasks ⋈ tasks` row as selected by the aggregate queries of the
achievement and challenge engines. -/
structure JoinedTaskRow where
  scheduled_date : ℕ
  status : Status
  task : database.Task
deriving DecidableEq, Repr

namespace DailyChallengeEngine

/-- One tier of the `DIFFICULTY` table; the presentational `color` field is
omitted. -/
structure Difficulty where
  min_bonus : ℕ
  max_bonus : ℕ
deriving DecidableEq, Repr

/-- The `DIFFICULTY` class constant (`src/services/motivation/challenges.py`
lines 19-24). -/
def DIFFICULTY : List (String × Difficulty) :=
  [("easy", ⟨25, 40⟩), ("medium", ⟨45, 70⟩), ("hard", ⟨75, 100⟩),
   ("epic", ⟨110, 150⟩)]

/-- One entry of the `CHALLENGES` pool: the difficulty tier is the only
field that feeds the bonus computation under verification; title,
description, icon, category, tags and the requirement payload are omitted
presentational/dispatch data. -/
structure Challenge where
  difficulty : String
deriving DecidableEq, Repr

/-- The 45-entry `CHALLENGES` pool (`src/services/motivation/challenges.py`
lines 27-…), keyed by challenge id, in source order. -/
def CHALLENGES : List (String × Challenge) :=
  [("deep_work_1h", ⟨"easy"⟩), ("deep_work_2h", ⟨"medium"⟩),
   ("deep_work_3_tasks", ⟨"hard"⟩), ("admin_blitz", ⟨"medium"⟩),
   ("learning_hour", ⟨"easy"⟩), ("active_work_5", ⟨"medium"⟩),
   ("balance_master", ⟨"hard"⟩), ("cognitive_diversity", ⟨"medium"⟩),
   ("three_tasks", ⟨"easy"⟩), ("five_tasks", ⟨"medium"⟩),
   ("seven_tasks", ⟨"hard"⟩), ("ten_tasks", ⟨"epic"⟩),
   ("first_task_quick", ⟨"easy"⟩), ("double_yesterday", ⟨"medium"⟩),
   ("task_sprint", ⟨"hard"⟩), ("minimum_viable", ⟨"easy"⟩),
   ("earn_50_points", ⟨"easy"⟩), ("earn_100_points", ⟨"medium"⟩),
   ("earn_150_points", ⟨"hard"⟩), ("earn_200_points", ⟨"epic"⟩),
   ("no_penalties", ⟨"medium"⟩), ("positive_net", ⟨"easy"⟩),
   ("early_bird", ⟨"medium"⟩), ("super_early_bird", ⟨"hard"⟩),
   ("finish_by_noon", ⟨"medium"⟩), ("finish_by_5pm", ⟨"hard"⟩),
   ("night_owl", ⟨"easy"⟩), ("time_boxer", ⟨"medium"⟩),
   ("speed_demon", ⟨"hard"⟩), ("keep_streak", ⟨"easy"⟩),
   ("streak_builder", ⟨"medium"⟩), ("weekend_warrior", ⟨"medium"⟩),
   ("monday_momentum", ⟨"medium"⟩), ("friday_finish", ⟨"hard"⟩),
   ("complexity_5", ⟨"hard"⟩), ("complexity_average_4", ⟨"epic"⟩),
   ("easy_wins", ⟨"easy"⟩), ("complexity_variety", ⟨"medium"⟩),
   ("no_easy_mode", ⟨"hard"⟩), ("perfect_day", ⟨"hard"⟩),
   ("comeback_kid", ⟨"medium"⟩), ("rollover_slayer", ⟨"hard"⟩),
   ("fresh_start", ⟨"easy"⟩), ("overachiever", ⟨"medium"⟩),
   ("zen_master", ⟨"medium"⟩)]

/-- One `challenge_history` row for a given date: the selected challenge id,
the `bonus_points` value recorded inside the `challenge_data` JSON at
selection time, and the completed flag. -/
structure ChallengeHistoryRow where
  challenge_id : String
  bonus_data : ℕ
  completed : Bool
deriving DecidableEq, Repr

/-- The fields of the dict returned by `get_daily_challenge` that carry
computed state: challenge id, bonus points and completion flag (title,
description, icon, category, difficulty color and tags are copied
presentational data). -/
structure ChallengeView where
  id : String
  bonus_points : ℕ
  completed : Bool
deriving DecidableEq, Repr

/-- `DailyChallengeEngine.get_daily_challenge`
(`src/services/motivation/challenges.py` lines 675-741), as a function of
the stored `challenge_history` row for the requested date (`hist`), of the
challenge id chosen by the score-weighted random `select_challenge`
(`selected`), and of the `random.randint(0, bonus_range)` draw (`draw`,
with `draw ≤ bonus_range` at call sites).  Returns the updated history row
and the response; `none` models an uncaught `KeyError` on the `DIFFICULTY`
dict (never reached for pool entries).  Note the read path recomputes
`bonus = (min_bonus + max_bonus) // 2` and does not read `bonus_data`
back. -/
def get_daily_challenge (hist : Option ChallengeHistoryRow) (selected : String)
    (draw : ℕ) : Option (Option ChallengeHistoryRow × ChallengeView) :=
  let fresh : Option (Option ChallengeHistoryRow × ChallengeView) :=
    match CHALLENGES.lookup selected with
    | some ch =>
      match DIFFICULTY.lookup ch.difficulty with
      | some d =>
        let bonus := d.min_bonus + draw
        some (some ⟨selected, bonus, false⟩, ⟨selected, bonus, false⟩)
      | none => none
    | none => none
  match hist with
  | some row =>
    match CHALLENGES.lookup row.challenge_id with
    | some ch =>
      match DIFFICULTY.lookup ch.difficulty with
      | some d =>
        some (some row,
          ⟨row.challenge_id, (d.min_bonus + d.max_bonus) / 2, row.completed⟩)
      | none => none
    | none => fresh
  | none => fresh

/-- The `daily_points` branch of
`DailyChallengeEngine.check_challenge_completion`
(`src/services/motivation/challenges.py` lines 802-810): the SQL
`SUM(t.complexity * 10)` over the date's completed instances. -/
def daily_points_sum (date_str : ℕ) (rows : List JoinedTaskRow) : ℤ :=
  ((rows.filter (fun r => r.scheduled_date = date_str ∧ r.status = Status.completed)).map
    (fun r => (r.task.complexity : ℤ) * 10)).sum

end DailyChallengeEngine

namespace AchievementEngine

/-- The "Total points (approximate)" query of
`AchievementEngine._gather_user_stats`
(`src/services/motivation/achievements.py` lines 727-733): the SQL
`SUM(t.complexity * 15)` over all completed instances. -/
def stats_total_points (rows : List JoinedTaskRow) : ℤ :=
  ((rows.filter (fun r => r.status = Status.completed)).map
    (fun r => (r.task.complexity : ℤ) * 15)).sum

/-- The "Best daily points" query of `AchievementEngine._gather_user_stats`
(`src/services/motivation/achievements.py` lines 736-746): the maximal
per-date SQL `SUM(t.complexity * 15)` over completed instances, `0` when
there are none (all per-date sums are non-negative, so folding `max` with
base `0` computes the query's `ORDER BY … DESC LIMIT 1` row). -/
def stats_best_daily_points (rows : List JoinedTaskRow) : ℤ :=
  let completed := rows.filter (fun r => r.status = Status.completed)
  let dates := (completed.map (fun r => r.scheduled_date)).dedup
  (dates.map (fun d =>
    ((completed.filter (fun r => r.scheduled_date = d)).map
      (fun r => (r.task.complexity : ℤ) * 15)).sum)).foldr max 0

end AchievementEngine

namespace AchievementEngine

/-- Python substring membership `pat in l` on character lists. -/
def listContains (pat : List Char) : List Char → Bool
  | [] => pat.isPrefixOf []
  | c :: xs => pat.isPrefixOf (c :: xs) || listContains pat xs

/-- Python `pat in s` on strings. -/
def strContains (s pat : String) : Bool := listContains pat.toList s.toList

/-- Python `s.startswith(pat)`. -/
def startswith (s pat : String) : Bool := pat.toList.isPrefixOf s.toList

/-- One tier of the `TIERS` table
(`src/services/motivation/achievements.py` lines 23-29); color and icon are
presentational and omitted. -/
structure TierInfo where
  multiplier : ℚ
deriving DecidableEq, Repr

def TIERS : List (String × TierInfo) :=
  [("bronze", ⟨1⟩), ("silver", ⟨3/2⟩), ("gold", ⟨2⟩), ("platinum", ⟨3⟩),
   ("diamond", ⟨5⟩)]

/-- One entry of the `ACHIEVEMENTS` table: the fields consumed by
`check_achievements` and `_check_achievement_requirement` (name,
description, icon and the `type` tag are presentational and omitted). -/
structure Achievement where
  category : String
  tier : String
  requirement : ℕ
  points : ℕ
  hidden : Bool
deriving DecidableEq, Repr

/-- The 51-entry `ACHIEVEMENTS` table
(`src/services/motivation/achievements.py` lines 32-637), keyed by
achievement id, in source order. -/
def ACHIEVEMENTS : List (String × Achievement) :=
  [("first_task", ⟨"tasks", "bronze", 1, 10, false⟩),
   ("task_10", ⟨"tasks", "bronze", 10, 25, false⟩),
   ("task_50", ⟨"tasks", "silver", 50, 75, false⟩),
   ("task_100", ⟨"tasks", "gold", 100, 150, false⟩),
   ("task_250", ⟨"tasks", "platinum", 250, 300, false⟩),
   ("task_500", ⟨"tasks", "platinum", 500, 500, false⟩),
   ("task_1000", ⟨"tasks", "diamond", 1000, 1000, false⟩),
   ("streak_3", ⟨"streak", "bronze", 3, 30, false⟩),
   ("streak_7", ⟨"streak", "silver", 7, 75, false⟩),
   ("streak_14", ⟨"streak", "gold", 14, 150, false⟩),
   ("streak_30", ⟨"streak", "platinum", 30, 400, false⟩),
   ("streak_60", ⟨"streak", "platinum", 60, 750, false⟩),
   ("streak_90", ⟨"streak", "diamond", 90, 1200, false⟩),
   ("streak_180", ⟨"streak", "diamond", 180, 2500, false⟩),
   ("streak_365", ⟨"streak", "diamond", 365, 5000, false⟩),
   ("points_100_day", ⟨"points", "silver", 100, 50, false⟩),
   ("points_200_day", ⟨"points", "gold", 200, 100, false⟩),
   ("points_500_total", ⟨"points", "silver", 500, 75, false⟩),
   ("points_2500_total", ⟨"points", "gold", 2500, 200, false⟩),
   ("points_10000_total", ⟨"points", "platinum", 10000, 500, false⟩),
   ("points_50000_total", ⟨"points", "diamond", 50000, 2000, false⟩),
   ("deep_work_10", ⟨"cognitive", "bronze", 10, 50, false⟩),
   ("deep_work_50", ⟨"cognitive", "silver", 50, 150, false⟩),
   ("deep_work_100", ⟨"cognitive", "gold", 100, 300, false⟩),
   ("learning_25", ⟨"cognitive", "silver", 25, 100, false⟩),
   ("learning_100", ⟨"cognitive", "gold", 100, 250, false⟩),
   ("admin_master", ⟨"cognitive", "silver", 50, 75, false⟩),
   ("balanced_day", ⟨"cognitive", "gold", 1, 100, false⟩),
   ("early_bird", ⟨"time", "silver", 1, 50, false⟩),
   ("early_bird_10", ⟨"time", "gold", 10, 150, false⟩),
   ("night_owl", ⟨"time", "silver", 1, 50, false⟩),
   ("night_owl_10", ⟨"time", "gold", 10, 150, false⟩),
   ("speed_demon", ⟨"time", "gold", 1, 75, false⟩),
   ("perfect_day", ⟨"perfect", "gold", 1, 100, false⟩),
   ("perfect_week", ⟨"perfect", "platinum", 7, 500, false⟩),
   ("perfect_month", ⟨"perfect", "diamond", 30, 2000, false⟩),
   ("no_penalty_week", ⟨"perfect", "gold", 7, 150, false⟩),
   ("comeback", ⟨"persistence", "silver", 3, 75, false⟩),
   ("comeback_master", ⟨"persistence", "gold", 10, 200, false⟩),
   ("streak_recovery", ⟨"persistence", "gold", 1, 150, false⟩),
   ("complexity_5_first", ⟨"complexity", "silver", 1, 50, false⟩),
   ("complexity_5_10", ⟨"complexity", "gold", 10, 200, false⟩),
   ("complexity_5_50", ⟨"complexity", "platinum", 50, 500, false⟩),
   ("challenge_first", ⟨"challenges", "bronze", 1, 25, false⟩),
   ("challenge_7", ⟨"challenges", "silver", 7, 100, false⟩),
   ("challenge_30", ⟨"challenges", "gold", 30, 300, false⟩),
   ("midnight_warrior", ⟨"secret", "gold", 1, 100, true⟩),
   ("weekend_legend", ⟨"secret", "gold", 50, 200, true⟩),
   ("monday_master", ⟨"secret", "silver", 10, 100, true⟩),
   ("variety_king", ⟨"secret", "platinum", 100, 400, true⟩),
   ("speed_run", ⟨"secret", "gold", 5, 150, true⟩)]

/-- The aggregate statistics dict built by
`AchievementEngine._gather_user_stats`
(`src/services/motivation/achievements.py` lines 709-834): every value is a
non-negative SQL count/sum; `cognitive_counts` is the per-category
completed-count dict. -/
structure Stats where
  total_completed : ℕ
  current_streak : ℕ
  longest_streak : ℕ
  total_points : ℕ
  best_daily_points : ℕ
  cognitive_counts : List (String × ℕ)
  early_bird_count : ℕ
  night_owl_count : ℕ
  complexity_5_count : ℕ
  comeback_count : ℕ
  perfect_days : ℕ
  challenges_completed : ℕ
  weekend_tasks : ℕ
  balanced_days : ℕ
deriving DecidableEq, Repr

/-- `AchievementEngine._check_achievement_requirement`
(`src/services/motivation/achievements.py` lines 837-899): the early-return
chain dispatching on the achievement id (the local `category` variable is
read but never used by the source). -/
def _check_achievement_requirement (achievement_id : String)
    (achievement : Achievement) (stats : Stats) : Bool :=
  let requirement := achievement.requirement
  if startswith achievement_id "task_" || achievement_id == "first_task" then
    decide (stats.total_completed ≥ requirement)
  else if startswith achievement_id "streak_" then
    decide (stats.current_streak ≥ requirement)
      || decide (stats.longest_streak ≥ requirement)
  else if strContains achievement_id "points" then
    if strContains achievement_id "day" then
      decide (stats.best_daily_points ≥ requirement)
    else
      decide (stats.total_points ≥ requirement)
  else if startswith achievement_id "deep_work_" then
    decide ((stats.cognitive_counts.lookup "deep_work").getD 0 ≥ requirement)
  else if startswith achievement_id "learning_" then
    decide ((stats.cognitive_counts.lookup "learning").getD 0 ≥ requirement)
  else if achievement_id == "admin_master" then
    decide ((stats.cognitive_counts.lookup "admin").getD 0 ≥ requirement)
  else if achievement_id == "balanced_day" then
    decide (stats.balanced_days ≥ requirement)
  else if strContains achievement_id "early_bird" then
    decide (stats.early_bird_count ≥ requirement)
  else if strContains achievement_id "night_owl"
      || strContains achievement_id "midnight" then
    decide (stats.night_owl_count ≥ requirement)
  else if achievement_id == "perfect_day" then
    decide (stats.perfect_days ≥ requirement)
  else if strContains achievement_id "perfect_week" then
    decide (stats.perfect_days ≥ 7)
  else if strContains achievement_id "complexity_5" then
    decide (stats.complexity_5_count ≥ requirement)
  else if strContains achievement_id "comeback" then
    decide (stats.comeback_count ≥ requirement)
  else if startswith achievement_id "challenge_" then
    decide (stats.challenges_completed ≥ requirement)
  else if achievement_id == "weekend_legend" then
    decide (stats.weekend_tasks ≥ requirement)
  else if achievement_id == "variety_king" then
    decide ((stats.cognitive_counts.map (fun p => p.2)).sum ≥ requirement)
      && decide (∀ cat ∈ ["deep_work", "learning", "active_work", "admin"],
          (stats.cognitive_counts.lookup cat).getD 0 ≥ 25)
  else
    false

/-- `final_points = int(achievement['points'] * tier['multiplier'])` with
`tier = TIERS.get(achievement['tier'], TIERS['bronze'])`
(`src/services/motivation/achievements.py` lines 680-681). -/
def final_points (a : Achievement) : ℤ :=
  pyInt ((a.points : ℚ) * ((TIERS.lookup a.tier).getD ⟨1⟩).multiplier)

/-- The `for achievement_id, achievement in ACHIEVEMENTS.items():` loop of
`check_achievements`, parameterized by the requirement predicate it calls;
the `unlocked` set is the loop's fixed snapshot of already-unlocked ids. -/
def check_loop (req : String → Achievement → Stats → Bool) (stats : Stats)
    (unlocked : List String) : List (String × Achievement) → List (String × ℤ)
  | [] => []
  | (aid, a) :: rest =>
    if aid ∈ unlocked then check_loop req stats unlocked rest
    else if req aid a stats then
      (aid, final_points a) :: check_loop req stats unlocked rest
    else check_loop req stats unlocked rest

/-- `AchievementEngine.check_achievements`
(`src/services/motivation/achievements.py` lines 653-706) as a state
transformer: takes the gathered stats and the stored set of unlocked
achievement ids, returns the newly unlocked `(id, final_points)` records
(in table order) and the updated unlocked set (each insert stores a
non-null `unlocked_at`). -/
def check_achievements (stats : Stats) (unlocked : List String) :
    List (String × ℤ) × List String :=
  let newly := check_loop _check_achievement_requirement stats unlocked ACHIEVEMENTS
  (newly, unlocked ++ newly.map (fun p => p.1))

end AchievementEngine

namespace TrendsEngine

/-- `y[i]` in `_analyze_trend`: the `completion_rate` of the i-th daily
metric. -/
def y_at (l : List ℚ) (i : ℕ) : ℚ := l.getD i 0

/-- The local `x_mean = sum(x) / n` of `_analyze_trend`, with
`x = list(range(n))`. -/
def x_mean (n : ℕ) : ℚ := (∑ i in Finset.range n, (i : ℚ)) / n

/-- The local `y_mean = sum(y) / n` of `_analyze_trend`. -/
def y_mean (l : List ℚ) : ℚ := (∑ i in Finset.range l.length, y_at l i) / l.length

/-- The local `numerator` (OLS covariance sum) of `_analyze_trend`. -/
def numerator (l : List ℚ) : ℚ :=
  ∑ i in Finset.range l.length, ((i : ℚ) - x_mean l.length) * (y_at l i - y_mean l)

/-- The local `denominator` (OLS variance sum) of `_analyze_trend`. -/
def denominator (l : List ℚ) : ℚ :=
  ∑ i in Finset.range l.length, ((i : ℚ) - x_mean l.length) ^ 2

/-- The local `slope = numerator / denominator if denominator != 0 else 0`
of `_analyze_trend`. -/
def slope (l : List ℚ) : ℚ :=
  if denominator l ≠ 0 then numerator l / denominator l else 0

/-- The local `ss_res` of `_analyze_trend`. -/
def ss_res (l : List ℚ) : ℚ :=
  ∑ i in Finset.range l.length,
    (y_at l i - (y_mean l + slope l * ((i : ℚ) - x_mean l.length))) ^ 2

/-- The local `ss_tot` of `_analyze_trend`. -/
def ss_tot (l : List ℚ) : ℚ :=
  ∑ i in Finset.range l.length, (y_at l i - y_mean l) ^ 2

/-- The local `r_squared = 1 - ss_res/ss_tot if ss_tot != 0 else 0` of
`_analyze_trend`. -/
def r_squared (l : List ℚ) : ℚ :=
  if ss_tot l ≠ 0 then 1 - ss_res l / ss_tot l else 0

/-- The computed fields of the dict returned by `_analyze_trend`: the
direction classification, the raw OLS slope, and R²; the rounded, absolute
and weekly-scaled copies of `slope`, the `max(0, r_squared) * 100`
confidence, the rounded `y_mean` and the icon are presentational copies of
these values and are omitted. -/
structure TrendInfo where
  direction : String
  slope : ℚ
  r_squared : ℚ
deriving DecidableEq, Repr

/-- `TrendsEngine._analyze_trend` (`src/services/analytics/trends.py` lines
169-219), as a function of the `completion_rate` column of the
`daily_metrics` argument (the only field the function reads). -/
def _analyze_trend (daily_metrics : List ℚ) : TrendInfo :=
  if daily_metrics.length < 3 then ⟨"insufficient_data", 0, 0⟩
  else
    let s := slope daily_metrics
    let direction :=
      if s > 2 then "strongly_improving"
      else if s > 1/2 then "improving"
      else if s > -(1/2) then "stable"
      else if s > -2 then "declining"
      else "strongly_declining"
    ⟨direction, s, r_squared daily_metrics⟩


end TrendsEngine

namespace api

/-- One `daily_tasks` row as used by `process_rollover`
(`src/blueprints/api.py`); calendar dates are modelled by day numbers (the
code only compares ISO date strings for equality). -/
structure DailyTask where
  id : ℕ
  task_id : ℕ
  scheduled_date : ℕ
  status : Status
  rolled_over_count : ℕ
  penalty_points : ℤ
deriving DecidableEq, Repr

/-- The `daily_tasks` table plus SQLite's autoincrementing id counter. -/
structure DB where
  rows : List DailyTask
  next_id : ℕ
deriving DecidableEq, Repr

/-- The `dt.status IN ('pending', 'in_progress')` condition of the snapshot
query. -/
def isIncomplete (r : DailyTask) : Bool :=
  r.status = Status.pending || r.status = Status.in_progress

/-- The `SELECT id FROM daily_tasks WHERE task_id = ? AND scheduled_date = ?`
existence check before the INSERT. -/
def hasInstance (rows : List DailyTask) (tid toD : ℕ) : Bool :=
  rows.any (fun r => r.task_id = tid && r.scheduled_date = toD)

/-- The `UPDATE daily_tasks SET status = 'abandoned' WHERE id = ?`
applied to one row. -/
def markAbandoned (i : ℕ) (r : DailyTask) : DailyTask :=
  if r.id = i then { r with status := Status.abandoned } else r

/-- The `for task in incomplete_tasks:` loop of `process_rollover`
(`src/blueprints/api.py` lines 301-325): per task, conditional INSERT of
the rolled-over instance for `to_date` (with incremented count and the
penalty from `calculate_penalty`), then unconditional abandonment of the
original row. -/
def rolloverLoop (toD : ℕ) : DB → List DailyTask → DB
  | db, [] => db
  | db, t :: ts =>
    let new_count := t.rolled_over_count + 1
    let new_penalty := database.calculate_penalty (new_count : ℤ)
    let db1 :=
      if hasInstance db.rows t.task_id toD then db
      else ⟨db.rows ++
          [⟨db.next_id, t.task_id, toD, Status.pending, new_count, new_penalty⟩],
        db.next_id + 1⟩
    rolloverLoop toD { db1 with rows := db1.rows.map (markAbandoned t.id) } ts

/-- `process_rollover` (`src/blueprints/api.py` lines 279-332) as a state
transformer on the `daily_tasks` table: the snapshot query selects the
incomplete instances of `from_date`, then the loop processes each.  (The
JSON response listing the migrated tasks is assembled from the same loop
and carries no further state.) -/
def process_rollover (fromD toD : ℕ) (db : DB) : DB :=
  rolloverLoop toD db
    (db.rows.filter (fun dt => dt.scheduled_date = fromD && isIncomplete dt))

/-- The `task_id = T AND scheduled_date = toD` row predicate shared by the
duplicate check and the invariants below. -/
def qrow (T toD : ℕ) (r : DailyTask) : Bool :=
  decide (r.task_id = T) && decide (r.scheduled_date = toD)

end api

/-! ### Lemmas and claim theorems -/

lemma pyInt_eq_floor (q : ℚ) (h : 0 ≤ q) : pyInt q = ⌊q⌋ := if_pos h

/-- The dict lookup `load_multipliers.get(k, 1.0)` as a decision chain. -/
lemma load_multipliers_getD (s : String) :
    ((database.load_multipliers.lookup s).getD 1 : ℚ) =
      (if s = "deep_work" then 2 else if s = "learning" then 3/2
       else if s = "active_work" then 6/5 else if s = "admin" then 1 else 1) := by
  by_cases h1 : s = "deep_work"
  · subst h1; rfl
  by_cases h2 : s = "learning"
  · subst h2; rfl
  by_cases h3 : s = "active_work"
  · subst h3; rfl
  by_cases h4 : s = "admin"
  · subst h4; rfl
  have b1 : (s == "deep_work") = false := beq_eq_false_iff_ne.mpr h1
  have b2 : (s == "learning") = false := beq_eq_false_iff_ne.mpr h2
  have b3 : (s == "active_work") = false := beq_eq_false_iff_ne.mpr h3
  have b4 : (s == "admin") = false := beq_eq_false_iff_ne.mpr h4
  simp [database.load_multipliers, List.lookup, b1, b2, b3, b4, h1, h2, h3, h4]

/-- Closed form of the embedded `calculate_task_points`: floor of
`(complexity*10 + (time_estimate//30)*5)` times the spec's multiplier
table. -/
lemma calculate_task_points_eq (c : ℕ) (l : Option String) (t : ℕ) :
    database.calculate_task_points ⟨c, l, t⟩ =
      ⌊(((c : ℚ) * 10 + ((t / 30 : ℕ) : ℚ) * 5) *
        (if l = some "deep_work" then 2 else if l = some "learning" then 3/2
         else if l = some "active_work" then 6/5
         else if l = some "admin" then 1 else 1) : ℚ)⌋ := by
  cases l with
  | none =>
    simp only [database.calculate_task_points]
    rw [pyInt_eq_floor _ (by push_cast; positivity)]
    norm_num
    norm_cast
  | some s =>
    simp only [database.calculate_task_points, load_multipliers_getD s,
      Option.some.injEq]
    split_ifs <;>
      (rw [pyInt_eq_floor _ (by push_cast; positivity)]; congr 1; push_cast;
        try ring_nf; norm_cast)

/-- C2.  The spec's end-to-end scenario claims
`score_task(complexity=3, cognitive_load='deep_work', time_estimate=60) = 70`;
on the code the value is 80 (time bonus is `(60//30)*5 = 10`, not 5), so the
claim as stated is false. -/
theorem C2_counterexample :
    database.calculate_task_points ⟨3, some "deep_work", 60⟩ ≠ 70 := by
  rw [calculate_task_points_eq]
  norm_num

/-- C2 (amended).  A task with complexity 3, cognitive load `deep_work` and
time estimate 60 scores exactly `(3*10 + (60//30)*5) * 2.0 = 80` points. -/
theorem C2_amended :
    database.calculate_task_points ⟨3, some "deep_work", 60⟩ = 80 := by
  rw [calculate_task_points_eq]
  norm_num

/-- C3.  For every complexity `c`, cognitive-load category `l` and time
estimate `t ≥ 0`, `calculate_task_points` returns
`⌊(c*10 + ⌊t/30⌋*5) * m(l)⌋` where `m` is 2.0 for `deep_work`, 1.5 for
`learning`, 1.2 for `active_work`, 1.0 for `admin` and 1.0 for an
unrecognized or missing category; being a total Lean function of its
arguments it is pure and total with no failure modes. -/
theorem C3_scoring_formula (c : ℕ) (l : Option String) (t : ℕ) :
    database.calculate_task_points ⟨c, l, t⟩ =
      ⌊(((c : ℚ) * 10 + ((t / 30 : ℕ) : ℚ) * 5) *
        (if l = some "deep_work" then 2 else if l = some "learning" then 3/2
         else if l = some "active_work" then 6/5
         else if l = some "admin" then 1 else 1) : ℚ)⌋ :=
  calculate_task_points_eq c l t

/-- C6.  Both implemented penalty formulas — the flat `count * 2` of
`database.calculate_penalty` and the capped escalating `min(⌊Σ 3·1.5^i⌋, 25)`
of `PointsEngine._calculate_penalty` — are non-negative and non-decreasing on
counts `0 ≤ n ≤ m`, and the escalating one is bounded by 25. -/
theorem C6_penalty_monotone_bounded (n m : ℤ) (hn : 0 ≤ n) (hnm : n ≤ m) :
    0 ≤ database.calculate_penalty n ∧
    database.calculate_penalty n ≤ database.calculate_penalty m ∧
    0 ≤ PointsEngine._calculate_penalty n ∧
    PointsEngine._calculate_penalty n ≤ PointsEngine._calculate_penalty m ∧
    PointsEngine._calculate_penalty n ≤ 25 := by
  have hsum_nonneg : ∀ k : ℕ,
      (0 : ℚ) ≤ ∑ i in Finset.range k,
        PointsEngine.PENALTIES.rollover_base *
          PointsEngine.PENALTIES.rollover_escalation ^ i := by
    intro k
    apply Finset.sum_nonneg
    intro i _
    have h : (0 : ℚ) ≤ (3 : ℚ) * (3/2) ^ i := by positivity
    simpa [PointsEngine.PENALTIES] using h
  have hesc_nonneg : ∀ k : ℤ, 0 ≤ PointsEngine._calculate_penalty k := by
    intro k
    unfold PointsEngine._calculate_penalty
    split_ifs with h
    · exact le_refl 0
    · refine le_min ?_ (by norm_num [PointsEngine.PENALTIES])
      rw [pyInt_eq_floor _ (hsum_nonneg _)]
      exact Int.le_floor.mpr (by simpa using hsum_nonneg k.toNat)
  have hesc_le25 : ∀ k : ℤ, PointsEngine._calculate_penalty k ≤ 25 := by
    intro k
    unfold PointsEngine._calculate_penalty
    split_ifs with h
    · norm_num
    · exact le_trans (min_le_right _ _) (by norm_num [PointsEngine.PENALTIES])
  refine ⟨by simpa [database.calculate_penalty] using
      mul_nonneg hn (by norm_num : (0:ℤ) ≤ 2), ?_, hesc_nonneg n, ?_, hesc_le25 n⟩
  · simp only [database.calculate_penalty]
    omega
  · unfold PointsEngine._calculate_penalty
    split_ifs with h1 h2
    · exact le_refl 0
    · refine le_min ?_ (by norm_num [PointsEngine.PENALTIES])
      rw [pyInt_eq_floor _ (hsum_nonneg _)]
      exact Int.le_floor.mpr (by simpa using hsum_nonneg m.toNat)
    · omega
    · apply min_le_min _ le_rfl
      rw [pyInt_eq_floor _ (hsum_nonneg _), pyInt_eq_floor _ (hsum_nonneg _)]
      apply Int.floor_le_floor
      apply Finset.sum_le_sum_of_subset_of_nonneg
      · exact Finset.range_subset.mpr (by omega)
      · intro i _ _
        have h : (0 : ℚ) ≤ (3 : ℚ) * (3/2) ^ i := by positivity
        simpa [PointsEngine.PENALTIES] using h

/-- C6 witness: the penalty properties at the concrete pair `n = 2 ≤ m = 3`. -/
theorem C6_penalty_witness :
    (0 : ℤ) ≤ 2 ∧ (2 : ℤ) ≤ 3 ∧
    (0 ≤ database.calculate_penalty 2 ∧
     database.calculate_penalty 2 ≤ database.calculate_penalty 3 ∧
     0 ≤ PointsEngine._calculate_penalty 2 ∧
     PointsEngine._calculate_penalty 2 ≤ PointsEngine._calculate_penalty 3 ∧
     PointsEngine._calculate_penalty 2 ≤ 25) :=
  ⟨by decide, by decide, C6_penalty_monotone_bounded 2 3 (by decide) (by decide)⟩

/-- C7.  Current-streak computation with today = `D`: (1) when `D`, `D-1`,
`D-2` are completed dates and `D-3` is not, the streak is 3; (2) when the
completed dates are exactly `{D-2, D-3}`, the streak is 0; (3) in general,
when `D` itself has no completion the walk starts counting from `D-1`
without treating the streak as broken. -/
theorem C7_current_streak (D : ℤ) (l : List ℤ) :
    (D ∈ l → D - 1 ∈ l → D - 2 ∈ l → D - 3 ∉ l →
      GamificationEngine._calculate_current_streak D l = 3)
    ∧ (l = [D - 2, D - 3] → GamificationEngine._calculate_current_streak D l = 0)
    ∧ (D ∉ l → l ≠ [] →
      GamificationEngine._calculate_current_streak D l =
        GamificationEngine.streakWalk l (D - 1)) := by
  refine ⟨?_, ?_, ?_⟩
  · intro h0 h1 h2 h3
    have hne : l ≠ [] := by intro h; subst h; cases h0
    unfold GamificationEngine._calculate_current_streak
    rw [if_neg hne]
    simp only [if_pos h0]
    rw [GamificationEngine.streakWalk, dif_pos h0]
    rw [GamificationEngine.streakWalk, dif_pos h1]
    have e2 : D - 1 - 1 = D - 2 := by ring
    rw [e2, GamificationEngine.streakWalk, dif_pos h2]
    have e3 : D - 2 - 1 = D - 3 := by ring
    rw [e3, GamificationEngine.streakWalk, dif_neg h3]
  · intro h
    subst h
    have h0 : D ∉ [D - 2, D - 3] := by
      intro hmem
      rcases List.mem_cons.mp hmem with h | h
      · omega
      · rcases List.mem_cons.mp h with h | h
        · omega
        · simp at h
    have h1 : D - 1 ∉ [D - 2, D - 3] := by
      intro hmem
      rcases List.mem_cons.mp hmem with h | h
      · omega
      · rcases List.mem_cons.mp h with h | h
        · omega
        · simp at h
    unfold GamificationEngine._calculate_current_streak
    rw [if_neg (by simp : ([D - 2, D - 3] : List ℤ) ≠ [])]
    simp only [if_neg h0]
    rw [GamificationEngine.streakWalk, dif_neg h1]
  · intro h0 hne
    unfold GamificationEngine._calculate_current_streak
    rw [if_neg hne]
    simp only [if_neg h0]

/-- C7 witness: completed dates `{10, 9, 8, 5}` with today `= 10` give a
current streak of 3. -/
theorem C7_current_streak_witness :
    GamificationEngine._calculate_current_streak 10 [10, 9, 8, 5] = 3 :=
  (C7_current_streak 10 [10, 9, 8, 5]).1 (by decide) (by decide) (by decide)
    (by decide)

/-- C10.  `validate_task_data` returns no errors iff, after the built-in
defaults (complexity 3, cognitive load `active_work`, time estimate 30) are
substituted for absent fields, the title is present and non-empty, the
complexity is an integer in `[1, 5]`, the cognitive load is one of the four
valid categories, and the time estimate is an integer `≥ 0`; in particular a
payload with only a non-empty title is accepted, and a time estimate of
exactly 0 is accepted. -/
theorem C10_validation (data : helpers.TaskData) :
    (helpers.validate_task_data data = [] ↔
      (data.title.getD "" ≠ ""
       ∧ (∃ n : ℤ, data.complexity.getD (helpers.PyVal.int 3) = helpers.PyVal.int n
            ∧ 1 ≤ n ∧ n ≤ 5)
       ∧ (∃ s : String,
            data.cognitive_load.getD (helpers.PyVal.str "active_work") = helpers.PyVal.str s
            ∧ s ∈ helpers.valid_loads)
       ∧ (∃ m : ℤ, data.time_estimate.getD (helpers.PyVal.int 30) = helpers.PyVal.int m
            ∧ 0 ≤ m)))
    ∧ helpers.validate_task_data ⟨some "Write the spec", none, none, none⟩ = []
    ∧ helpers.validate_task_data
        ⟨some "Write the spec", none, none, some (helpers.PyVal.int 0)⟩ = [] := by
  refine ⟨?_, by decide, by decide⟩
  unfold helpers.validate_task_data
  rcases data with ⟨title, complexity, cognitive_load, time_estimate⟩
  simp only
  by_cases ht : title.getD "" = "" <;>
    rcases hc : complexity.getD (helpers.PyVal.int 3) with n | s | _ <;>
    rcases hl : cognitive_load.getD (helpers.PyVal.str "active_work") with n2 | s2 | _ <;>
    rcases ht2 : time_estimate.getD (helpers.PyVal.int 30) with n3 | s3 | _ <;>
    simp_all <;>
    (try split_ifs) <;>
    (try simp_all) <;>
    (try omega)

/-- C1.  The spec says the randomized bonus persisted on first access for a
date is returned unchanged by subsequent reads of `get_daily_challenge`.
On the code, the first call draws and persists bonus 25 for the easy
challenge `deep_work_1h` (tier range [25, 40], draw 0), but every later
read of the persisted date recomputes `(25 + 40) // 2 = 32` and ignores the
persisted `challenge_data` bonus: the returned bonus 32 differs from the
persisted randomized value 25. -/
theorem C1_persisted_bonus_ignored :
    DailyChallengeEngine.get_daily_challenge none "deep_work_1h" 0
      = some (some ⟨"deep_work_1h", 25, false⟩, ⟨"deep_work_1h", 25, false⟩)
    ∧ DailyChallengeEngine.get_daily_challenge
        (some ⟨"deep_work_1h", 25, false⟩) "deep_work_1h" 0
      = some (some ⟨"deep_work_1h", 25, false⟩, ⟨"deep_work_1h", 32, false⟩)
    ∧ (32 : ℕ) ≠ 25 := by
  decide

/-- C4.  The repo does not score completed tasks through one canonical
function: for the completed task (complexity 3, `deep_work`, 60 min) the
canonical `calculate_task_points` yields 80, while the achievement engine's
lifetime/best-daily totals count it as `3 * 15 = 45` and the challenge
engine's daily-points completion check counts it as `3 * 10 = 30`. -/
theorem C4_divergent_scoring :
    database.calculate_task_points ⟨3, some "deep_work", 60⟩ = 80
    ∧ AchievementEngine.stats_total_points
        [⟨1, Status.completed, ⟨3, some "deep_work", 60⟩⟩] = 45
    ∧ AchievementEngine.stats_best_daily_points
        [⟨1, Status.completed, ⟨3, some "deep_work", 60⟩⟩] = 45
    ∧ DailyChallengeEngine.daily_points_sum 1
        [⟨1, Status.completed, ⟨3, some "deep_work", 60⟩⟩] = 30
    ∧ (45 : ℤ) ≠ 80 ∧ (30 : ℤ) ≠ 80 := by
  refine ⟨?_, by decide, by decide, by decide, by decide, by decide⟩
  rw [calculate_task_points_eq]
  norm_num

namespace TrendsEngine

/-- Clearing denominators in the OLS covariance sum. -/
lemma numerator_mul_card (l : List ℚ) (hn : (l.length : ℚ) ≠ 0) :
    numerator l * l.length =
      (l.length : ℚ) * (∑ i in Finset.range l.length, (i : ℚ) * y_at l i) -
        (∑ i in Finset.range l.length, (i : ℚ)) *
          (∑ i in Finset.range l.length, y_at l i) := by
  have expand : ∀ i ∈ Finset.range l.length,
      ((i : ℚ) - x_mean l.length) * (y_at l i - y_mean l) =
        (i : ℚ) * y_at l i - (i : ℚ) * y_mean l - x_mean l.length * y_at l i +
          x_mean l.length * y_mean l := fun i _ => by ring
  rw [numerator, Finset.sum_congr rfl expand]
  rw [Finset.sum_add_distrib, Finset.sum_sub_distrib, Finset.sum_sub_distrib,
    ← Finset.sum_mul, ← Finset.mul_sum, Finset.sum_const, Finset.card_range,
    nsmul_eq_mul]
  rw [x_mean, y_mean]
  field_simp
  ring

/-- For a strictly increasing metric list, index and value monovary, so
Chebyshev's sum inequality gives the OLS covariance a non-negative sign. -/
lemma numerator_nonneg (l : List ℚ) (hmono : l.Chain' (· < ·)) :
    0 ≤ numerator l := by
  rcases Nat.eq_zero_or_pos l.length with h0 | hpos
  · simp [numerator, h0]
  have hn : (l.length : ℚ) ≠ 0 := by
    exact_mod_cast Nat.pos_iff_ne_zero.mp hpos
  have hp : List.Pairwise (· < ·) l := List.chain'_iff_pairwise.mp hmono
  have hget : ∀ i j : ℕ, i < l.length → j < l.length → i < j →
      y_at l i < y_at l j := by
    intro i j hi hj hij
    have := List.pairwise_iff_get.mp hp ⟨i, hi⟩ ⟨j, hj⟩ hij
    rwa [y_at, y_at, List.getD_eq_get l 0 hi, List.getD_eq_get l 0 hj]
  have hM : MonovaryOn (fun i : ℕ => (i : ℚ)) (fun i => y_at l i)
      ↑(Finset.range l.length) := by
    intro i hi j hj hgij
    have hi' : i < l.length := by simpa using hi
    have hj' : j < l.length := by simpa using hj
    have hij : i < j := by
      rcases lt_trichotomy i j with h | h | h
      · exact h
      · subst h; exact absurd hgij (lt_irrefl _)
      · exact absurd (hget j i hj' hi' h) (not_lt.mpr (le_of_lt hgij))
    show (i : ℚ) ≤ (j : ℚ)
    exact_mod_cast Nat.le_of_lt hij
  have hcheb := hM.sum_mul_sum_le_card_mul_sum
  rw [Finset.card_range] at hcheb
  have key : 0 ≤ numerator l * l.length := by
    rw [numerator_mul_card l hn]
    linarith
  have hpos' : (0 : ℚ) < l.length := by
    exact_mod_cast hpos
  nlinarith

/-- The OLS slope of a strictly increasing metric list is non-negative. -/
lemma slope_nonneg (l : List ℚ) (hmono : l.Chain' (· < ·)) : 0 ≤ slope l := by
  rw [slope]
  split_ifs with h
  · apply div_nonneg (numerator_nonneg l hmono)
    have : 0 ≤ denominator l := Finset.sum_nonneg fun i _ => sq_nonneg _
    exact this
  · exact le_refl 0

end TrendsEngine

/-- C9.  The claim that every strictly increasing daily completion-rate
series is classified `improving` or `strongly_improving` is false: the
strictly increasing series `[0, 0.1, 0.2]` has OLS slope `0.1 ≤ 0.5` and is
classified `stable`. -/
theorem C9_counterexample :
    List.Chain' (· < ·) [(0 : ℚ), 1/10, 2/10]
    ∧ (TrendsEngine._analyze_trend [(0 : ℚ), 1/10, 2/10]).direction = "stable"
    ∧ ("stable" : String) ≠ "improving"
    ∧ ("stable" : String) ≠ "strongly_improving" := by
  refine ⟨by norm_num, ?_, by decide, by decide⟩
  have hden : TrendsEngine.denominator [(0 : ℚ), 1/10, 2/10] = 2 := by
    norm_num [TrendsEngine.denominator, TrendsEngine.x_mean,
      Finset.sum_range_succ, TrendsEngine.y_at]
  have hnum : TrendsEngine.numerator [(0 : ℚ), 1/10, 2/10] = 1/5 := by
    norm_num [TrendsEngine.numerator, TrendsEngine.x_mean, TrendsEngine.y_mean,
      Finset.sum_range_succ, TrendsEngine.y_at]
  have hslope : TrendsEngine.slope [(0 : ℚ), 1/10, 2/10] = 1/10 := by
    rw [TrendsEngine.slope, if_pos (by rw [hden]; norm_num), hden, hnum]
    norm_num
  rw [TrendsEngine._analyze_trend, if_neg (by norm_num)]
  simp only [hslope]
  norm_num

/-- C9 (amended).  Direction is assigned from the OLS slope of completion
rate over day index by the thresholds `> 2` strongly improving, `> 0.5`
improving, `> -0.5` stable, `> -2` declining, else strongly declining; a
strictly increasing completion-rate series (of the required length ≥ 3) has
a non-negative slope and is therefore classified `stable`, `improving` or
`strongly_improving` — but not necessarily `improving`: when the slope does
not exceed 0.5 the code reports `stable`. -/
theorem C9_amended (l : List ℚ) (h3 : 3 ≤ l.length)
    (hmono : l.Chain' (· < ·)) :
    (TrendsEngine._analyze_trend l).direction = "stable"
    ∨ (TrendsEngine._analyze_trend l).direction = "improving"
    ∨ (TrendsEngine._analyze_trend l).direction = "strongly_improving" := by
  have hs := TrendsEngine.slope_nonneg l hmono
  rw [TrendsEngine._analyze_trend, if_neg (by omega)]
  dsimp only
  by_cases h2 : TrendsEngine.slope l > 2
  · rw [if_pos h2]
    right; right; rfl
  rw [if_neg h2]
  by_cases h1 : TrendsEngine.slope l > 1/2
  · rw [if_pos h1]
    right; left; rfl
  rw [if_neg h1]
  rw [if_pos (show TrendsEngine.slope l > -(1/2) by linarith)]
  left; rfl

/-- C9 witness: the strictly increasing series `[0, 1, 3]` is classified in
the non-declining set. -/
theorem C9_amended_witness :
    3 ≤ ([(0 : ℚ), 1, 3]).length ∧ List.Chain' (· < ·) [(0 : ℚ), 1, 3] ∧
    ((TrendsEngine._analyze_trend [(0 : ℚ), 1, 3]).direction = "stable"
     ∨ (TrendsEngine._analyze_trend [(0 : ℚ), 1, 3]).direction = "improving"
     ∨ (TrendsEngine._analyze_trend [(0 : ℚ), 1, 3]).direction = "strongly_improving") :=
  ⟨by norm_num, by norm_num,
    C9_amended [(0 : ℚ), 1, 3] (by norm_num) (by norm_num)⟩

namespace AchievementEngine

lemma check_loop_mem (req : String → Achievement → Stats → Bool) (stats : Stats)
    (unlocked : List String) :
    ∀ l : List (String × Achievement), ∀ aid a, (aid, a) ∈ l →
      aid ∉ unlocked → req aid a stats = true →
      aid ∈ (check_loop req stats unlocked l).map (fun p => p.1) := by
  intro l
  induction l with
  | nil => intro aid a h; cases h
  | cons p rest ih =>
    intro aid a hmem hu hreq
    rcases p with ⟨pid, pa⟩
    rcases List.mem_cons.mp hmem with h | h
    · injection h with h1 h2
      subst h1; subst h2
      rw [check_loop, if_neg hu, if_pos hreq]
      simp
    · rw [check_loop]
      split_ifs with h1 h2
      · exact ih aid a h hu hreq
      · simp only [List.map_cons, List.mem_cons]
        exact Or.inr (ih aid a h hu hreq)
      · exact ih aid a h hu hreq

lemma check_loop_blocked (req : String → Achievement → Stats → Bool)
    (stats : Stats) (u : List String) :
    ∀ l : List (String × Achievement),
      (∀ p ∈ l, p.1 ∈ u ∨ req p.1 p.2 stats = false) →
      check_loop req stats u l = [] := by
  intro l
  induction l with
  | nil => intro _; rfl
  | cons p rest ih =>
    intro h
    rcases p with ⟨pid, pa⟩
    rcases h (pid, pa) (List.mem_cons_self _ _) with h1 | h1
    · rw [check_loop, if_pos h1]
      exact ih fun q hq => h q (List.mem_cons_of_mem _ hq)
    · rw [check_loop]
      split_ifs with h2 h3
      · exact ih fun q hq => h q (List.mem_cons_of_mem _ hq)
      · rw [h1] at h3; cases h3
      · exact ih fun q hq => h q (List.mem_cons_of_mem _ hq)

lemma check_loop_congr (req1 req2 : String → Achievement → Stats → Bool)
    (stats : Stats) (unlocked : List String)
    (hagree : ∀ aid a, aid ∉ unlocked → req1 aid a stats = req2 aid a stats) :
    ∀ l : List (String × Achievement),
      check_loop req1 stats unlocked l = check_loop req2 stats unlocked l := by
  intro l
  induction l with
  | nil => rfl
  | cons p rest ih =>
    rcases p with ⟨pid, pa⟩
    rw [check_loop, check_loop]
    by_cases h1 : pid ∈ unlocked
    · rw [if_pos h1, if_pos h1, ih]
    · rw [if_neg h1, if_neg h1, hagree pid pa h1, ih]


end AchievementEngine

/-- C8.  `check_achievements` is idempotent: with unchanged stats, a second
call right after a first one unlocks nothing and leaves the unlocked set
unchanged; moreover its result never depends on the value of the
requirement predicate at ids that are already persisted as unlocked (their
conditions are skipped, not re-evaluated): any two predicates agreeing on
the not-yet-unlocked ids produce the same unlock list. -/
theorem C8_check_achievements_idempotent (stats : AchievementEngine.Stats)
    (unlocked : List String)
    (req1 req2 : String → AchievementEngine.Achievement → AchievementEngine.Stats → Bool)
    (hagree : ∀ aid a, aid ∉ unlocked → req1 aid a stats = req2 aid a stats) :
    (AchievementEngine.check_achievements stats
        (AchievementEngine.check_achievements stats unlocked).2).1 = []
    ∧ (AchievementEngine.check_achievements stats
        (AchievementEngine.check_achievements stats unlocked).2).2
      = (AchievementEngine.check_achievements stats unlocked).2
    ∧ AchievementEngine.check_loop req1 stats unlocked AchievementEngine.ACHIEVEMENTS
      = AchievementEngine.check_loop req2 stats unlocked AchievementEngine.ACHIEVEMENTS := by
  have hblocked : (AchievementEngine.check_achievements stats
      (AchievementEngine.check_achievements stats unlocked).2).1 = [] := by
    apply AchievementEngine.check_loop_blocked
    intro p hp
    by_cases hu : p.1 ∈ (AchievementEngine.check_achievements stats unlocked).2
    · exact Or.inl hu
    · right
      by_cases hreq : AchievementEngine._check_achievement_requirement p.1 p.2 stats = true
      · exfalso
        apply hu
        have hnotu : p.1 ∉ unlocked := by
          intro hmem
          exact hu (List.mem_append_left _ hmem)
        have := AchievementEngine.check_loop_mem
          AchievementEngine._check_achievement_requirement stats unlocked
          AchievementEngine.ACHIEVEMENTS p.1 p.2 hp hnotu hreq
        exact List.mem_append_right _ this
      · exact Bool.not_eq_true _ ▸ Bool.eq_false_iff.mpr hreq
  refine ⟨hblocked, ?_, AchievementEngine.check_loop_congr req1 req2 stats unlocked hagree _⟩
  have hb2 : AchievementEngine.check_loop AchievementEngine._check_achievement_requirement
      stats (AchievementEngine.check_achievements stats unlocked).2
      AchievementEngine.ACHIEVEMENTS = [] := hblocked
  show (AchievementEngine.check_achievements stats unlocked).2 ++ _ = _
  rw [hb2]
  simp

/-- C8 witness: starting from the empty store with all-zero stats, the
second call unlocks nothing, the unlocked set is stable, and the result is
independent of the predicate values at unlocked ids. -/
theorem C8_idempotent_witness :
    (AchievementEngine.check_achievements ⟨0, 0, 0, 0, 0, [], 0, 0, 0, 0, 0, 0, 0, 0⟩
        (AchievementEngine.check_achievements ⟨0, 0, 0, 0, 0, [], 0, 0, 0, 0, 0, 0, 0, 0⟩ []).2).1 = []
    ∧ (AchievementEngine.check_achievements ⟨0, 0, 0, 0, 0, [], 0, 0, 0, 0, 0, 0, 0, 0⟩
        (AchievementEngine.check_achievements ⟨0, 0, 0, 0, 0, [], 0, 0, 0, 0, 0, 0, 0, 0⟩ []).2).2
      = (AchievementEngine.check_achievements ⟨0, 0, 0, 0, 0, [], 0, 0, 0, 0, 0, 0, 0, 0⟩ []).2
    ∧ AchievementEngine.check_loop AchievementEngine._check_achievement_requirement
        ⟨0, 0, 0, 0, 0, [], 0, 0, 0, 0, 0, 0, 0, 0⟩ [] AchievementEngine.ACHIEVEMENTS
      = AchievementEngine.check_loop AchievementEngine._check_achievement_requirement
        ⟨0, 0, 0, 0, 0, [], 0, 0, 0, 0, 0, 0, 0, 0⟩ [] AchievementEngine.ACHIEVEMENTS :=
  C8_check_achievements_idempotent ⟨0, 0, 0, 0, 0, [], 0, 0, 0, 0, 0, 0, 0, 0⟩ []
    AchievementEngine._check_achievement_requirement
    AchievementEngine._check_achievement_requirement
    (fun _ _ _ => rfl)

namespace api

lemma markAbandoned_id (i : ℕ) (r : DailyTask) : (markAbandoned i r).id = r.id := by
  rw [markAbandoned]; split_ifs <;> rfl

lemma markAbandoned_task_id (i : ℕ) (r : DailyTask) :
    (markAbandoned i r).task_id = r.task_id := by
  rw [markAbandoned]; split_ifs <;> rfl

lemma markAbandoned_date (i : ℕ) (r : DailyTask) :
    (markAbandoned i r).scheduled_date = r.scheduled_date := by
  rw [markAbandoned]; split_ifs <;> rfl

lemma markAbandoned_of_ne (i : ℕ) (r : DailyTask) (h : r.id ≠ i) :
    markAbandoned i r = r := by
  rw [markAbandoned, if_neg h]

/-- `filter` commutes with `map f` when `f` preserves the predicate. -/
lemma filter_map_comm (f : DailyTask → DailyTask) (p : DailyTask → Bool)
    (hp : ∀ r, p (f r) = p r) :
    ∀ l : List DailyTask, (l.map f).filter p = (l.filter p).map f := by
  intro l
  induction l with
  | nil => rfl
  | cons a l ih =>
    simp only [List.map_cons, List.filter_cons, hp a]
    by_cases h : p a = true
    · rw [if_pos h, if_pos h, List.map_cons, ih]
    · rw [if_neg h, if_neg h, ih]

/-- The loop never decreases the autoincrement counter. -/
lemma rolloverLoop_next_id_le (toD : ℕ) :
    ∀ (ts : List DailyTask) (db : DB), db.next_id ≤ (rolloverLoop toD db ts).next_id := by
  intro ts
  induction ts with
  | nil => intro db; exact le_refl _
  | cons t ts ih =>
    intro db
    simp only [rolloverLoop]
    split_ifs with h
    · refine le_trans ?_ (ih _)
      exact le_refl _
    · refine le_trans ?_ (ih _)
      exact Nat.le_succ _

/-- The id-filtered rows are fixed by an abandon map keyed to a different
id. -/
lemma filter_id_map_fix (j i : ℕ) (hne : j ≠ i) (l : List DailyTask) :
    (l.filter (fun r => decide (r.id = i))).map (markAbandoned j) =
      l.filter (fun r => decide (r.id = i)) := by
  have h : ∀ r ∈ l.filter (fun r => decide (r.id = i)),
      markAbandoned j r = id r := by
    intro r hr
    have hi : r.id = i := by simpa using (List.mem_filter.mp hr).2
    exact markAbandoned_of_ne j r (by rw [hi]; exact fun hh => hne hh.symm)
  rw [List.map_congr_left h, List.map_id]

/-- Rows whose id differs from every processed task and lies below the
counter pass through the loop unchanged (as seen through an id filter). -/
lemma rolloverLoop_filter_id (toD i : ℕ) :
    ∀ (ts : List DailyTask) (db : DB), (∀ t ∈ ts, t.id ≠ i) → i < db.next_id →
      (rolloverLoop toD db ts).rows.filter (fun r => decide (r.id = i)) =
        db.rows.filter (fun r => decide (r.id = i)) := by
  intro ts
  induction ts with
  | nil => intro db _ _; rfl
  | cons t ts ih =>
    intro db hne hlt
    have hti : t.id ≠ i := hne t (List.mem_cons_self _ _)
    have hpres : ∀ r : DailyTask,
        (fun r : DailyTask => decide (r.id = i)) (markAbandoned t.id r) =
          (fun r : DailyTask => decide (r.id = i)) r := fun r => by
      simp [markAbandoned_id]
    simp only [rolloverLoop]
    split_ifs with h
    · refine Eq.trans (ih _ (fun x hx => hne x (List.mem_cons_of_mem _ hx)) ?_) ?_
      · exact hlt
      · rw [filter_map_comm _ _ hpres, filter_id_map_fix t.id i hti]
    · refine Eq.trans (ih _ (fun x hx => hne x (List.mem_cons_of_mem _ hx)) ?_) ?_
      · exact Nat.lt_succ_of_lt hlt
      · rw [filter_map_comm _ _ hpres, List.filter_append]
        have hni : ¬ db.next_id = i := by omega
        have hnew : List.filter (fun r => decide (r.id = i))
            [(⟨db.next_id, t.task_id, toD, Status.pending, t.rolled_over_count + 1,
              database.calculate_penalty ((t.rolled_over_count + 1 : ℕ) : ℤ)⟩ : DailyTask)]
            = [] := by
          simp [hni]
        rw [hnew, List.append_nil, filter_id_map_fix t.id i hti]

/-- With pairwise-distinct ids, filtering on a member's id picks exactly
that member. -/
lemma filter_id_unique :
    ∀ (rows : List DailyTask), rows.Pairwise (fun a b => a.id ≠ b.id) →
      ∀ t : DailyTask, t ∈ rows →
      rows.filter (fun r => decide (r.id = t.id)) = [t] := by
  intro rows
  induction rows with
  | nil => intro _ t ht; cases ht
  | cons a l ih =>
    intro hid t ht
    rcases List.pairwise_cons.mp hid with ⟨ha, hl⟩
    rcases List.mem_cons.mp ht with h | h
    · subst h
      rw [List.filter_cons, if_pos (by simp)]
      have : l.filter (fun r => decide (r.id = t.id)) = [] := by
        apply List.filter_eq_nil_iff.mpr
        intro b hb
        simp only [decide_eq_true_eq]
        exact fun hbid => (ha b hb) hbid.symm
      rw [this]
    · have hat : ¬ a.id = t.id := ha t h
      rw [List.filter_cons, if_neg (by simpa using hat), ih hl t h]

lemma qrow_iff (T toD : ℕ) (r : DailyTask) :
    qrow T toD r = true ↔ (r.task_id = T ∧ r.scheduled_date = toD) := by
  simp [qrow]

lemma qrow_markAbandoned (T toD j : ℕ) (r : DailyTask) :
    qrow T toD (markAbandoned j r) = qrow T toD r := by
  simp [qrow, markAbandoned_task_id, markAbandoned_date]

lemma hasInstance_eq_any_qrow (rows : List DailyTask) (tid toD : ℕ) :
    hasInstance rows tid toD = rows.any (qrow tid toD) := rfl

/-- The q-filtered rows are fixed by an abandon map keyed to an id no
matching row carries. -/
lemma filter_q_map_fix (j T toD : ℕ) (l : List DailyTask)
    (h : ∀ r ∈ l, qrow T toD r = true → r.id ≠ j) :
    (l.filter (qrow T toD)).map (markAbandoned j) = l.filter (qrow T toD) := by
  have hfix : ∀ r ∈ l.filter (qrow T toD), markAbandoned j r = id r := by
    intro r hr
    rcases List.mem_filter.mp hr with ⟨hmem, hq⟩
    exact markAbandoned_of_ne j r (h r hmem hq)
  rw [List.map_congr_left hfix, List.map_id]

/-- Rows matching `(T, toD)` pass through the loop unchanged provided no
processed task targets task `T` and no matching row shares an id with a
processed task. -/
lemma rolloverLoop_filter_q (toD T : ℕ) :
    ∀ (ts : List DailyTask) (db : DB),
      (∀ t ∈ ts, t.task_id ≠ T) →
      (∀ r ∈ db.rows, qrow T toD r = true → ∀ t ∈ ts, r.id ≠ t.id) →
      (∀ t ∈ ts, t.id < db.next_id) →
      (rolloverLoop toD db ts).rows.filter (qrow T toD) =
        db.rows.filter (qrow T toD) := by
  intro ts
  induction ts with
  | nil => intro db _ _ _; rfl
  | cons t ts ih =>
    intro db h1 h2 h3
    have htT : t.task_id ≠ T := h1 t (List.mem_cons_self _ _)
    have hpresq : ∀ r : DailyTask, qrow T toD (markAbandoned t.id r) = qrow T toD r :=
      qrow_markAbandoned T toD t.id
    have hfixdb : ∀ r ∈ db.rows, qrow T toD r = true → r.id ≠ t.id := by
      intro r hr hq
      exact h2 r hr hq t (List.mem_cons_self _ _)
    simp only [rolloverLoop]
    split_ifs with h
    · refine Eq.trans (ih _ (fun x hx => h1 x (List.mem_cons_of_mem _ hx)) ?_
          (fun x hx => h3 x (List.mem_cons_of_mem _ hx))) ?_
      · intro r hr hq x hx
        rcases List.mem_map.mp hr with ⟨r0, hr0, hrfl⟩
        have hq0 : qrow T toD r0 = true := by rw [← hpresq r0, hrfl]; exact hq
        have := h2 r0 hr0 hq0 x (List.mem_cons_of_mem _ hx)
        rw [← hrfl, markAbandoned_id]
        exact this
      · rw [filter_map_comm _ _ hpresq, filter_q_map_fix t.id T toD _ hfixdb]
    · refine Eq.trans (ih _ (fun x hx => h1 x (List.mem_cons_of_mem _ hx)) ?_
          (fun x hx => Nat.lt_succ_of_lt (h3 x (List.mem_cons_of_mem _ hx)))) ?_
      · intro r hr hq x hx
        rcases List.mem_map.mp hr with ⟨r0, hr0, hrfl⟩
        have hq0 : qrow T toD r0 = true := by rw [← hpresq r0, hrfl]; exact hq
        rcases List.mem_append.mp hr0 with hr0' | hr0'
        · have := h2 r0 hr0' hq0 x (List.mem_cons_of_mem _ hx)
          rw [← hrfl, markAbandoned_id]
          exact this
        · exfalso
          have heq : r0 = (⟨db.next_id, t.task_id, toD, Status.pending,
              t.rolled_over_count + 1,
              database.calculate_penalty ((t.rolled_over_count + 1 : ℕ) : ℤ)⟩ : DailyTask) := by
            simpa using hr0'
          rw [heq] at hq0
          simp [qrow, htT] at hq0
      · rw [filter_map_comm _ _ hpresq, List.filter_append]
        have hnf : List.filter (qrow T toD)
            [(⟨db.next_id, t.task_id, toD, Status.pending, t.rolled_over_count + 1,
              database.calculate_penalty ((t.rolled_over_count + 1 : ℕ) : ℤ)⟩ : DailyTask)]
            = [] := by
          simp [List.filter_cons, qrow, htT]
        rw [hnf, List.append_nil, filter_q_map_fix t.id T toD _ hfixdb]

/-- The loop processes an appended snapshot in two stages. -/
lemma rolloverLoop_append (toD : ℕ) :
    ∀ (l₁ l₂ : List DailyTask) (db : DB),
      rolloverLoop toD db (l₁ ++ l₂) =
        rolloverLoop toD (rolloverLoop toD db l₁) l₂ := by
  intro l₁
  induction l₁ with
  | nil => intro l₂ db; rfl
  | cons t l₁ ih =>
    intro l₂ db
    simp only [List.cons_append, rolloverLoop]
    split_ifs with h
    · exact ih l₂ _
    · exact ih l₂ _


end api

/-- C5.  `process_rollover(from_date, to_date)` on a table with unique row
ids, at most one instance per (task, date) and `from_date ≠ to_date`: every
pending/in-progress instance `t` of `from_date` is marked abandoned; a new
`(task, to_date)` instance with status pending, count `old + 1` and penalty
`calculate_penalty (old + 1)` is inserted exactly when no `(task, to_date)`
instance already exists; and concretely, a single pending task rolled from
day 1 to day 2 yields exactly one day-2 instance with count 1 and the day-1
instance abandoned, and rolling again to day 3 yields count 2 with penalty
`4 ≥ 2`. -/
theorem C5_process_rollover (fromD toD : ℕ) (db : api.DB) (t : api.DailyTask)
    (Hid : db.rows.Pairwise (fun a b => a.id ≠ b.id))
    (Hbound : ∀ r ∈ db.rows, r.id < db.next_id)
    (Hpair : db.rows.Pairwise
      (fun a b => ¬(a.task_id = b.task_id ∧ a.scheduled_date = b.scheduled_date)))
    (Hne : fromD ≠ toD)
    (htmem : t ∈ db.rows) (htdate : t.scheduled_date = fromD)
    (htstatus : t.status = Status.pending ∨ t.status = Status.in_progress) :
    ((api.process_rollover fromD toD db).rows.filter (fun r => decide (r.id = t.id))
        = [{ t with status := Status.abandoned }])
    ∧ (db.rows.filter (api.qrow t.task_id toD) = [] →
        ∃ n, (api.process_rollover fromD toD db).rows.filter (api.qrow t.task_id toD)
          = [⟨n, t.task_id, toD, Status.pending, t.rolled_over_count + 1,
              database.calculate_penalty ((t.rolled_over_count + 1 : ℕ) : ℤ)⟩])
    ∧ (db.rows.filter (api.qrow t.task_id toD) ≠ [] →
        (api.process_rollover fromD toD db).rows.filter (api.qrow t.task_id toD)
          = db.rows.filter (api.qrow t.task_id toD))
    ∧ ((api.process_rollover 1 2 ⟨[⟨1, 1, 1, Status.pending, 0, 0⟩], 2⟩).rows
        = [⟨1, 1, 1, Status.abandoned, 0, 0⟩, ⟨2, 1, 2, Status.pending, 1, 2⟩])
    ∧ ((api.process_rollover 2 3
          (api.process_rollover 1 2 ⟨[⟨1, 1, 1, Status.pending, 0, 0⟩], 2⟩)).rows
        = [⟨1, 1, 1, Status.abandoned, 0, 0⟩, ⟨2, 1, 2, Status.abandoned, 1, 2⟩,
           ⟨3, 1, 3, Status.pending, 2, 4⟩])
    ∧ database.calculate_penalty 1 ≤ database.calculate_penalty 2 := by
  have hne_of_idne : ∀ a b : api.DailyTask, a.id ≠ b.id → a ≠ b :=
    fun a b h he => h (he ▸ rfl)
  have hsymm_id : Symmetric (fun a b : api.DailyTask => a.id ≠ b.id) :=
    fun a b h => Ne.symm h
  have hsymm_pair : Symmetric (fun a b : api.DailyTask =>
      ¬(a.task_id = b.task_id ∧ a.scheduled_date = b.scheduled_date)) :=
    fun a b h hc => h ⟨hc.1.symm, hc.2.symm⟩
  have htssnap : t ∈ db.rows.filter
      (fun dt => decide (dt.scheduled_date = fromD) && api.isIncomplete dt) := by
    apply List.mem_filter.mpr
    refine ⟨htmem, ?_⟩
    rcases htstatus with h | h <;> simp [api.isIncomplete, htdate, h]
  obtain ⟨l₁, l₂, hsplit⟩ := List.append_of_mem htssnap
  have hsubl : (db.rows.filter
      (fun dt => decide (dt.scheduled_date = fromD) && api.isIncomplete dt)).Sublist
      db.rows := List.filter_sublist _
  have hmemsnap : ∀ x ∈ l₁ ++ t :: l₂, x ∈ db.rows := by
    intro x hx
    apply List.Sublist.mem ?_ hsubl
    rw [hsplit]
    exact hx
  have hdatesnap : ∀ x ∈ l₁ ++ t :: l₂, x.scheduled_date = fromD := by
    intro x hx
    have hx' : x ∈ db.rows.filter
        (fun dt => decide (dt.scheduled_date = fromD) && api.isIncomplete dt) := by
      rw [hsplit]; exact hx
    have := (List.mem_filter.mp hx').2
    simp only [Bool.and_eq_true, decide_eq_true_eq] at this
    exact this.1
  have hidsnap := hsplit ▸ (List.Pairwise.sublist hsubl Hid)
  rcases List.pairwise_append.mp hidsnap with ⟨hidl₁, hidtl₂, hidcross⟩
  rcases List.pairwise_cons.mp hidtl₂ with ⟨hidt_l₂, hidl₂⟩
  -- a snapshot member other than t never targets t's task
  have htaskne : ∀ x ∈ l₁ ++ t :: l₂, x.id ≠ t.id → x.task_id ≠ t.task_id := by
    intro x hx hxid
    have hxt : x ≠ t := hne_of_idne x t hxid
    have hxd : x.scheduled_date = fromD := hdatesnap x hx
    have := List.Pairwise.forall hsymm_pair Hpair (hmemsnap x hx) htmem hxt
    intro htask
    exact this ⟨htask, by rw [hxd, htdate]⟩
  -- rows matching (t.task_id, toD) never share an id with a snapshot member
  have hqid : ∀ r ∈ db.rows, api.qrow t.task_id toD r = true →
      ∀ x ∈ l₁ ++ t :: l₂, r.id ≠ x.id := by
    intro r hr hq x hx
    have hrd : r.scheduled_date = toD := ((api.qrow_iff _ _ r).mp hq).2
    have hxd : x.scheduled_date = fromD := hdatesnap x hx
    have hrx : r ≠ x := by
      intro he
      rw [he, hxd] at hrd
      exact Hne hrd
    exact List.Pairwise.forall hsymm_id Hid hr (hmemsnap x hx) hrx
  have hmain : api.process_rollover fromD toD db =
      api.rolloverLoop toD (api.rolloverLoop toD db l₁) (t :: l₂) := by
    simp only [api.process_rollover]
    rw [hsplit, api.rolloverLoop_append]
  have hAnext : db.next_id ≤ (api.rolloverLoop toD db l₁).next_id :=
    api.rolloverLoop_next_id_le toD l₁ db
  have htlt : t.id < (api.rolloverLoop toD db l₁).next_id :=
    lt_of_lt_of_le (Hbound t htmem) hAnext
  have hAid : (api.rolloverLoop toD db l₁).rows.filter
      (fun r => decide (r.id = t.id)) = [t] := by
    rw [api.rolloverLoop_filter_id toD t.id l₁ db
      (fun x hx => hidcross x hx t (List.mem_cons_self _ _)) (Hbound t htmem)]
    exact api.filter_id_unique db.rows Hid t htmem
  have hAq : (api.rolloverLoop toD db l₁).rows.filter (api.qrow t.task_id toD)
      = db.rows.filter (api.qrow t.task_id toD) := by
    apply api.rolloverLoop_filter_q toD t.task_id l₁ db
    · intro x hx
      exact htaskne x (List.mem_append_left _ hx)
        (hidcross x hx t (List.mem_cons_self _ _))
    · intro r hr hq x hx
      exact hqid r hr hq x (List.mem_append_left _ hx)
    · intro x hx
      exact Hbound x (hmemsnap x (List.mem_append_left _ hx))
  have hpresid : ∀ r : api.DailyTask,
      (fun r : api.DailyTask => decide (r.id = t.id)) (api.markAbandoned t.id r) =
        (fun r : api.DailyTask => decide (r.id = t.id)) r := fun r => by
    simp [api.markAbandoned_id]
  have hl₂id : ∀ x ∈ l₂, x.id ≠ t.id := fun x hx => Ne.symm (hidt_l₂ x hx)
  have hl₂task : ∀ x ∈ l₂, x.task_id ≠ t.task_id := fun x hx =>
    htaskne x (List.mem_append_right _ (List.mem_cons_of_mem _ hx)) (hl₂id x hx)
  have hl₂lt : ∀ x ∈ l₂, x.id < db.next_id := fun x hx =>
    Hbound x (hmemsnap x (List.mem_append_right _ (List.mem_cons_of_mem _ hx)))
  have hmarkt : api.markAbandoned t.id t = { t with status := Status.abandoned } := by
    rw [api.markAbandoned, if_pos rfl]
  refine ⟨?_, ?_, ?_, by decide, by decide, by decide⟩
  all_goals rw [hmain]
  all_goals simp only [api.rolloverLoop]
  · -- (a) the from-date instance ends up abandoned
    split_ifs with hhi
    · refine Eq.trans (api.rolloverLoop_filter_id toD t.id l₂ _ hl₂id ?_) ?_
      · exact htlt
      · dsimp only
        rw [api.filter_map_comm _ _ hpresid, hAid]
        simp [hmarkt]
    · refine Eq.trans (api.rolloverLoop_filter_id toD t.id l₂ _ hl₂id ?_) ?_
      · exact Nat.lt_succ_of_lt htlt
      · dsimp only
        rw [api.filter_map_comm _ _ hpresid, List.filter_append, hAid]
        have hnew : List.filter (fun r => decide (r.id = t.id))
            [(⟨(api.rolloverLoop toD db l₁).next_id, t.task_id, toD, Status.pending,
              t.rolled_over_count + 1,
              database.calculate_penalty ((t.rolled_over_count + 1 : ℕ) : ℤ)⟩ :
              api.DailyTask)] = [] := by
          have : ¬ (api.rolloverLoop toD db l₁).next_id = t.id := by omega
          simp [this]
        rw [hnew, List.append_nil]
        simp [hmarkt]
  · -- (b) fresh insert when no (task, to_date) instance exists
    intro hdup
    split_ifs with hhi
    · exfalso
      rw [api.hasInstance_eq_any_qrow] at hhi
      rcases List.any_eq_true.mp hhi with ⟨x, hx, hqx⟩
      have : x ∈ (api.rolloverLoop toD db l₁).rows.filter (api.qrow t.task_id toD) :=
        List.mem_filter.mpr ⟨hx, hqx⟩
      rw [hAq, hdup] at this
      cases this
    · refine ⟨(api.rolloverLoop toD db l₁).next_id, ?_⟩
      have hAqnil : (api.rolloverLoop toD db l₁).rows.filter (api.qrow t.task_id toD)
          = [] := by rw [hAq, hdup]
      refine Eq.trans (api.rolloverLoop_filter_q toD t.task_id l₂ _ hl₂task ?_ ?_) ?_
      · intro r hr hq x hx
        rcases List.mem_map.mp hr with ⟨r0, hr0, hrfl⟩
        have hq0 : api.qrow t.task_id toD r0 = true := by
          rw [← api.qrow_markAbandoned t.task_id toD t.id r0, hrfl]
          exact hq
        rcases List.mem_append.mp hr0 with hr0' | hr0'
        · exfalso
          have : r0 ∈ (api.rolloverLoop toD db l₁).rows.filter (api.qrow t.task_id toD) :=
            List.mem_filter.mpr ⟨hr0', hq0⟩
          rw [hAqnil] at this
          cases this
        · have hr0eq : r0 = (⟨(api.rolloverLoop toD db l₁).next_id, t.task_id, toD,
              Status.pending, t.rolled_over_count + 1,
              database.calculate_penalty ((t.rolled_over_count + 1 : ℕ) : ℤ)⟩ :
              api.DailyTask) := by simpa using hr0'
          rw [← hrfl, api.markAbandoned_id, hr0eq]
          have := hl₂lt x hx
          have h2 : x.id < (api.rolloverLoop toD db l₁).next_id :=
            lt_of_lt_of_le this hAnext
          show (api.rolloverLoop toD db l₁).next_id ≠ x.id
          omega
      · intro x hx
        exact Nat.lt_succ_of_lt (lt_of_lt_of_le (hl₂lt x hx) hAnext)
      · dsimp only
        have hpresq := api.qrow_markAbandoned t.task_id toD t.id
        rw [api.filter_map_comm _ _ hpresq, List.filter_append, hAqnil]
        have hqnew : api.qrow t.task_id toD
            (⟨(api.rolloverLoop toD db l₁).next_id, t.task_id, toD, Status.pending,
              t.rolled_over_count + 1,
              database.calculate_penalty ((t.rolled_over_count + 1 : ℕ) : ℤ)⟩ :
              api.DailyTask) = true := by simp [api.qrow]
        rw [List.nil_append]
        rw [List.filter_cons, if_pos hqnew, List.filter_nil, List.map_cons,
          List.map_nil]
        rw [api.markAbandoned_of_ne _ _
          (show (api.rolloverLoop toD db l₁).next_id ≠ t.id by omega)]
  · -- (c) no insert when a (task, to_date) instance already exists
    intro hdup
    split_ifs with hhi
    · have hfixA : ∀ r ∈ (api.rolloverLoop toD db l₁).rows,
          api.qrow t.task_id toD r = true → r.id ≠ t.id := by
        intro r hr hq
        have : r ∈ (api.rolloverLoop toD db l₁).rows.filter (api.qrow t.task_id toD) :=
          List.mem_filter.mpr ⟨hr, hq⟩
        rw [hAq] at this
        rcases List.mem_filter.mp this with ⟨hrdb, hqdb⟩
        exact hqid r hrdb hqdb t (List.mem_append_right _ (List.mem_cons_self _ _))
      refine Eq.trans (api.rolloverLoop_filter_q toD t.task_id l₂ _ hl₂task ?_ ?_) ?_
      · intro r hr hq x hx
        rcases List.mem_map.mp hr with ⟨r0, hr0, hrfl⟩
        have hq0 : api.qrow t.task_id toD r0 = true := by
          rw [← api.qrow_markAbandoned t.task_id toD t.id r0, hrfl]
          exact hq
        have : r0 ∈ (api.rolloverLoop toD db l₁).rows.filter (api.qrow t.task_id toD) :=
          List.mem_filter.mpr ⟨hr0, hq0⟩
        rw [hAq] at this
        rcases List.mem_filter.mp this with ⟨hrdb, hqdb⟩
        rw [← hrfl, api.markAbandoned_id]
        exact hqid r0 hrdb hqdb x
          (List.mem_append_right _ (List.mem_cons_of_mem _ hx))
      · intro x hx
        exact lt_of_lt_of_le (hl₂lt x hx) hAnext
      · dsimp only
        have hpresq := api.qrow_markAbandoned t.task_id toD t.id
        rw [api.filter_map_comm _ _ hpresq, api.filter_q_map_fix t.id t.task_id toD _ hfixA,
          hAq]
    · exfalso
      rcases List.exists_mem_of_ne_nil _ hdup with ⟨x, hx⟩
      rcases List.mem_filter.mp hx with ⟨hxdb, hxq⟩
      apply hhi
      rw [api.hasInstance_eq_any_qrow]
      apply List.any_eq_true.mpr
      refine ⟨x, ?_, hxq⟩
      have : x ∈ (api.rolloverLoop toD db l₁).rows.filter (api.qrow t.task_id toD) := by
        rw [hAq]
        exact hx
      exact (List.mem_filter.mp this).1

/-- C5 witness: applying the rollover theorem to the one-pending-task table
shows the day-1 instance of task 1 ends up abandoned. -/
theorem C5_process_rollover_witness :
    (api.process_rollover 1 2 ⟨[⟨1, 1, 1, Status.pending, 0, 0⟩], 2⟩).rows.filter
        (fun r => decide (r.id = 1)) = [⟨1, 1, 1, Status.abandoned, 0, 0⟩] :=
  (C5_process_rollover 1 2 ⟨[⟨1, 1, 1, Status.pending, 0, 0⟩], 2⟩
    ⟨1, 1, 1, Status.pending, 0, 0⟩ (by simp) (by decide) (by simp) (by decide)
    (by decide) (by decide) (Or.inl rfl)).1
